import Mathlib

/-!
Shallow embedding of the trade-settlement engine of `my-public-shares`.

The engine lives in `src/src/utils/tradeExecution.ts` (`executeTradeTransaction`,
the function the UI `src/src/pages/Trade.tsx` actually calls) and in
`src/unnamed/part_004` (`executeTradeTransactionImproved`, the variant with
pre-validation and compensating rollbacks).  The invariant auditor lives in
`src/src/utils/debugTrading.ts` (`debugAllTradeableUsers`,
`fixShareCountDiscrepancies`).

Modelling conventions:
* All claims are about a single issuer (one `profiles` row), so the state
  carries that issuer's `total_shares` / `available_shares` directly; buyer
  accounts (`user_accounts`), ownership rows (`shares`, keyed by
  `owner_id` — the schema in `src/unnamed/part_003` has
  `UNIQUE(owner_id, tradeable_user_id)`) and the `transactions` log are lists.
* JavaScript numbers are modelled as `ℚ` (exact arithmetic; floating-point
  rounding is not modelled).
* Every `supabase` call site gets a fixed index into a fault schedule
  `faults : Nat → Bool`; `faults i = true` means that call errors, which
  mirrors the `if (someError) ...` branch at that call site.  A `.single()`
  read of a missing row also surfaces as an error, modelled separately.
* The source deletes/updates `shares` rows by the `id` of the row it just
  found for `(owner_id, tradeable_user_id)`; since that pair is UNIQUE the
  embedding keys those writes by `owner_id`.
* `events` is a ghost trace recording each store mutation actually performed,
  in order, used to reason about the ordering of writes.  `nextId` models the
  generated primary key of the next `transactions` row.
-/

inductive TradeType
  | buy
  | sell
deriving DecidableEq

/-- Mirrors the TS `TradeExecutionResult` interface
(`src/src/utils/tradeExecution.ts` lines 3-7). -/
structure TradeExecutionResult where
  success : Bool
  error : Option String := none
  transactionId : Option Nat := none
deriving DecidableEq

/-- Ghost labels for the store mutations the engine can perform. -/
inductive MutEv
  | updBalance
  | updShares
  | insPos
  | updPos
  | delPos
  | insTxn
  | delTxn
deriving DecidableEq

/-- A `shares` row for the fixed issuer (table `public.shares`). -/
structure Position where
  owner_id : Nat
  quantity : ℚ
  average_price : ℚ
deriving DecidableEq

/-- A `transactions` row for the fixed issuer (table `public.transactions`). -/
structure Txn where
  id : Nat
  buyer_id : Nat
  seller_id : Option Nat
  transaction_type : TradeType
  quantity : ℚ
  price_per_share : ℚ
  total_amount : ℚ
deriving DecidableEq

/-- The persisted state the engine touches, for one issuer. -/
structure DbState where
  accounts : List (Nat × ℚ)
  total_shares : ℚ
  available_shares : ℚ
  shares : List Position
  transactions : List Txn
  nextId : Nat
  events : List MutEv
deriving DecidableEq

/-- `select balance from user_accounts where user_id = u` (`.single()`). -/
def lookupBalance : List (Nat × ℚ) → Nat → Option ℚ
  | [], _ => none
  | (uid, b) :: rest, u => if uid = u then some b else lookupBalance rest u

/-- `update user_accounts set balance = nb where user_id = u`. -/
def setBalanceRows : List (Nat × ℚ) → Nat → ℚ → List (Nat × ℚ)
  | [], _, _ => []
  | (uid, b) :: rest, u, nb =>
      if uid = u then (uid, nb) :: setBalanceRows rest u nb
      else (uid, b) :: setBalanceRows rest u nb

def DbState.balanceOf (st : DbState) (u : Nat) : Option ℚ :=
  lookupBalance st.accounts u

def updateBalance (st : DbState) (u : Nat) (nb : ℚ) : DbState :=
  { st with accounts := setBalanceRows st.accounts u nb,
            events := st.events ++ [MutEv.updBalance] }

/-- `update profiles set available_shares = v where user_id = issuer`. -/
def updateAvailableShares (st : DbState) (v : ℚ) : DbState :=
  { st with available_shares := v, events := st.events ++ [MutEv.updShares] }

/-- `select * from shares where owner_id = u and tradeable_user_id = issuer`. -/
def findPositionRows : List Position → Nat → Option Position
  | [], _ => none
  | r :: rest, u => if r.owner_id = u then some r else findPositionRows rest u

def DbState.findPosition (st : DbState) (u : Nat) : Option Position :=
  findPositionRows st.shares u

/-- `update shares set quantity = q, average_price = a` on the row found for
owner `u` (the source updates by that row's `id`; the key is UNIQUE). -/
def setPositionRows : List Position → Nat → ℚ → ℚ → List Position
  | [], _, _, _ => []
  | r :: rest, u, q, a =>
      if r.owner_id = u then
        { r with quantity := q, average_price := a } :: setPositionRows rest u q a
      else r :: setPositionRows rest u q a

def updatePosition (st : DbState) (u : Nat) (q a : ℚ) : DbState :=
  { st with shares := setPositionRows st.shares u q a,
            events := st.events ++ [MutEv.updPos] }

/-- `delete from shares` on the row found for owner `u`. -/
def removePositionRows : List Position → Nat → List Position
  | [], _ => []
  | r :: rest, u =>
      if r.owner_id = u then removePositionRows rest u
      else r :: removePositionRows rest u

def deletePosition (st : DbState) (u : Nat) : DbState :=
  { st with shares := removePositionRows st.shares u,
            events := st.events ++ [MutEv.delPos] }

/-- `insert into shares (owner_id, tradeable_user_id, quantity, average_price)`. -/
def insertPosition (st : DbState) (u : Nat) (q a : ℚ) : DbState :=
  { st with shares := st.shares ++ [{ owner_id := u, quantity := q, average_price := a }],
            events := st.events ++ [MutEv.insPos] }

/-- `insert into transactions (...) select id` — the new row gets id `st.nextId`. -/
def appendTransaction (st : DbState) (buyerId : Nat) (tt : TradeType)
    (q p amt : ℚ) : DbState :=
  { st with
      transactions := st.transactions ++
        [{ id := st.nextId, buyer_id := buyerId,
           seller_id := if tt = TradeType.sell then some buyerId else none,
           transaction_type := tt, quantity := q, price_per_share := p,
           total_amount := amt }],
      nextId := st.nextId + 1,
      events := st.events ++ [MutEv.insTxn] }

/-- `delete from transactions where id = i`. -/
def removeTxnRows : List Txn → Nat → List Txn
  | [], _ => []
  | t :: rest, i =>
      if t.id = i then removeTxnRows rest i else t :: removeTxnRows rest i

def deleteTransaction (st : DbState) (i : Nat) : DbState :=
  { st with transactions := removeTxnRows st.transactions i,
            events := st.events ++ [MutEv.delTxn] }

/-- Schedule on which every store call succeeds. -/
def noFaults : Nat → Bool := fun _ => false

/-- Step 6 of `executeTradeTransaction` (source lines 176-200): record the
transaction; fault index 6 is that insert erroring. -/
def recordTransactionStep (st : DbState) (faults : Nat → Bool) (buyerId : Nat)
    (quantity pricePerShare totalAmount : ℚ) (transactionType : TradeType) :
    TradeExecutionResult × DbState :=
  if faults 6 then
    ({ success := false, error := some "Failed to record transaction" }, st)
  else
    ({ success := true, transactionId := some st.nextId },
      appendTransaction st buyerId transactionType quantity pricePerShare totalAmount)

/-- `executeTradeTransaction` (`src/src/utils/tradeExecution.ts` lines 9-206).
Call sites, in source order, carry fault indices:
0 read `user_accounts` (`.single()`), 1 read `profiles` (`.single()`),
2 update balance, 3 update `available_shares` (on error the source may report
a more specific RLS message depending on the error payload; the payload is not
modelled, so the generic message is used), 4 read `shares` (`.maybeSingle()`),
5 the delete/update/insert on `shares`, 6 insert into `transactions`. -/
def executeTradeTransaction (st : DbState) (faults : Nat → Bool) (buyerId : Nat)
    (quantity pricePerShare : ℚ) (transactionType : TradeType) :
    TradeExecutionResult × DbState :=
  let totalAmount := quantity * pricePerShare
  if faults 0 then
    ({ success := false, error := some "Failed to fetch buyer account information" }, st)
  else
    match st.balanceOf buyerId with
    | none =>
        ({ success := false, error := some "Failed to fetch buyer account information" }, st)
    | some balance =>
      if transactionType = TradeType.buy ∧ balance < totalAmount then
        ({ success := false, error := some "Insufficient funds" }, st)
      else if faults 1 then
        ({ success := false, error := some "Failed to fetch trader information" }, st)
      else if transactionType = TradeType.buy ∧ st.available_shares < quantity then
        ({ success := false, error := some "Insufficient shares available" }, st)
      else
        let newBalance := if transactionType = TradeType.buy then balance - totalAmount
          else balance + totalAmount
        if faults 2 then
          ({ success := false, error := some "Failed to update account balance" }, st)
        else
          let st1 := updateBalance st buyerId newBalance
          let newAvailableShares := if transactionType = TradeType.buy then
              st.available_shares - quantity
            else st.available_shares + quantity
          if faults 3 then
            ({ success := false, error := some "Failed to update share availability" }, st1)
          else
            let st2 := updateAvailableShares st1 newAvailableShares
            if faults 4 then
              ({ success := false, error := some "Failed to check existing shares" }, st2)
            else
              match st2.findPosition buyerId with
              | some existingShares =>
                let newQuantity := if transactionType = TradeType.buy then
                    existingShares.quantity + quantity
                  else existingShares.quantity - quantity
                let newAveragePrice := if transactionType = TradeType.buy then
                    (existingShares.quantity * existingShares.average_price +
                      quantity * pricePerShare) / (existingShares.quantity + quantity)
                  else existingShares.average_price
                if newQuantity ≤ 0 then
                  if faults 5 then
                    ({ success := false, error := some "Failed to update shares record" }, st2)
                  else
                    recordTransactionStep (deletePosition st2 buyerId) faults buyerId
                      quantity pricePerShare totalAmount transactionType
                else
                  if faults 5 then
                    ({ success := false, error := some "Failed to update shares record" }, st2)
                  else
                    recordTransactionStep (updatePosition st2 buyerId newQuantity newAveragePrice)
                      faults buyerId quantity pricePerShare totalAmount transactionType
              | none =>
                if transactionType = TradeType.buy then
                  if faults 5 then
                    ({ success := false, error := some "Failed to create shares record" }, st2)
                  else
                    recordTransactionStep (insertPosition st2 buyerId quantity pricePerShare)
                      faults buyerId quantity pricePerShare totalAmount transactionType
                else
                  ({ success := false, error := some "Cannot sell shares you do not own" }, st2)

/-- A compensating store call: the source `await`s it and ignores its result,
so a fault at its index simply means the compensation did not happen. -/
def tryComp (st : DbState) (faults : Nat → Bool) (i : Nat)
    (f : DbState → DbState) : DbState :=
  if faults i then st else f st

/-- The three-call rollback block of `executeTradeTransactionImproved`
(`src/unnamed/part_004`, e.g. lines 169-172): restore the buyer balance,
restore `available_shares`, delete the transaction row — ignoring errors. -/
def rollbackAll (st : DbState) (faults : Nat → Bool) (i j k : Nat)
    (buyerId : Nat) (origBalance origAvailable : ℚ) (txId : Nat) : DbState :=
  tryComp (tryComp (tryComp st faults i (fun s => updateBalance s buyerId origBalance))
    faults j (fun s => updateAvailableShares s origAvailable))
    faults k (fun s => deleteTransaction s txId)

/-- The two-call rollback block (restore balance, delete transaction). -/
def rollbackBalTxn (st : DbState) (faults : Nat → Bool) (i j : Nat)
    (buyerId : Nat) (origBalance : ℚ) (txId : Nat) : DbState :=
  tryComp (tryComp st faults i (fun s => updateBalance s buyerId origBalance))
    faults j (fun s => deleteTransaction s txId)

/-- Step 5 of `executeTradeTransactionImproved` (`src/unnamed/part_004` lines
158-246): read the ownership row (fault index 13; compensations 14-16 on
error), then delete / update / insert it (fault indices 17 / 21 / 25;
compensations 18-20 / 22-24 / 26-28), rolling back balance,
`available_shares` and the transaction row on error.  `balance` and
`origAvailable` are the values read before any mutation; `st3` is the state
after steps 2-4. -/
def improvedOwnershipStep (faults : Nat → Bool) (buyerId : Nat)
    (quantity pricePerShare : ℚ) (transactionType : TradeType)
    (balance origAvailable : ℚ) (txId : Nat) (st3 : DbState) :
    TradeExecutionResult × DbState :=
  if faults 13 then
    ({ success := false, error := some "Failed to check existing shares" },
      rollbackAll st3 faults 14 15 16 buyerId balance origAvailable txId)
  else
    match st3.findPosition buyerId with
    | some existingShares =>
      let newQuantity := if transactionType = TradeType.buy then
          existingShares.quantity + quantity
        else existingShares.quantity - quantity
      let newAveragePrice := if transactionType = TradeType.buy then
          (existingShares.quantity * existingShares.average_price +
            quantity * pricePerShare) / (existingShares.quantity + quantity)
        else existingShares.average_price
      if newQuantity ≤ 0 then
        if faults 17 then
          ({ success := false, error := some "Failed to update shares record" },
            rollbackAll st3 faults 18 19 20 buyerId balance origAvailable txId)
        else
          ({ success := true, transactionId := some txId }, deletePosition st3 buyerId)
      else
        if faults 21 then
          ({ success := false, error := some "Failed to update shares record" },
            rollbackAll st3 faults 22 23 24 buyerId balance origAvailable txId)
        else
          ({ success := true, transactionId := some txId },
            updatePosition st3 buyerId newQuantity newAveragePrice)
    | none =>
      if transactionType = TradeType.buy then
        if faults 25 then
          ({ success := false, error := some "Failed to create shares record" },
            rollbackAll st3 faults 26 27 28 buyerId balance origAvailable txId)
        else
          ({ success := true, transactionId := some txId },
            insertPosition st3 buyerId quantity pricePerShare)
      else
        ({ success := true, transactionId := some txId }, st3)

/-- `executeTradeTransactionImproved` (`src/unnamed/part_004` lines 9-252).
Call sites, in source order, carry fault indices:
0 read `user_accounts`, 1 read `profiles`, 2 read `shares` for the sell check
(`.single()`: a store error, a missing row, or too few shares all reject),
3 insert into `transactions`, 4 update balance (compensation: 5 delete txn),
pure checks on `newAvailableShares` (compensations 6-7 resp. 8-9),
10 update `available_shares` (compensations 11-12), then step 5 via
`improvedOwnershipStep`. -/
def executeTradeTransactionImproved (st : DbState) (faults : Nat → Bool)
    (buyerId : Nat) (quantity pricePerShare : ℚ) (transactionType : TradeType) :
    TradeExecutionResult × DbState :=
  let totalAmount := quantity * pricePerShare
  if faults 0 then
    ({ success := false, error := some "Failed to fetch buyer account information" }, st)
  else
    match st.balanceOf buyerId with
    | none =>
        ({ success := false, error := some "Failed to fetch buyer account information" }, st)
    | some balance =>
      if transactionType = TradeType.buy ∧ balance < totalAmount then
        ({ success := false, error := some "Insufficient funds" }, st)
      else if faults 1 then
        ({ success := false, error := some "Failed to fetch trader information" }, st)
      else if transactionType = TradeType.buy ∧ st.available_shares < quantity then
        ({ success := false, error := some "Insufficient shares available" }, st)
      else
        let sellHoldingsOk : Bool :=
          match st.findPosition buyerId with
          | none => false
          | some existing => decide (quantity ≤ existing.quantity)
        if transactionType = TradeType.sell ∧ (faults 2 = true ∨ sellHoldingsOk = false) then
          ({ success := false, error := some "Cannot sell shares you do not own" }, st)
        else if faults 3 then
          ({ success := false, error := some "Failed to record transaction" }, st)
        else
          let txId := st.nextId
          let st1 := appendTransaction st buyerId transactionType quantity pricePerShare totalAmount
          let newBalance := if transactionType = TradeType.buy then balance - totalAmount
            else balance + totalAmount
          if faults 4 then
            ({ success := false, error := some "Failed to update account balance" },
              tryComp st1 faults 5 (fun s => deleteTransaction s txId))
          else
            let st2 := updateBalance st1 buyerId newBalance
            let newAvailableShares := if transactionType = TradeType.buy then
                st.available_shares - quantity
              else st.available_shares + quantity
            if newAvailableShares < 0 then
              ({ success := false, error := some "Invalid share calculation" },
                rollbackBalTxn st2 faults 6 7 buyerId balance txId)
            else if st.total_shares < newAvailableShares then
              ({ success := false, error := some "Invalid share calculation" },
                rollbackBalTxn st2 faults 8 9 buyerId balance txId)
            else if faults 10 then
              ({ success := false, error := some "Failed to update share availability" },
                rollbackBalTxn st2 faults 11 12 buyerId balance txId)
            else
              improvedOwnershipStep faults buyerId quantity pricePerShare
                transactionType balance st.available_shares txId
                (updateAvailableShares st2 newAvailableShares)

/-! ### Interleaving machine for `executeTradeTransaction`

Each `await supabase...` call is one atomic store operation; between two calls
another in-flight invocation may run.  The machine below is
`executeTradeTransaction` (fault-free schedule) cut at its seven call sites:
the program counter names the next store call, and values read earlier are
kept in locals (`balanceRead`, `availRead`, `posRead`) exactly as the source
keeps `buyerAccount.balance`, `tradeableProfile.available_shares` and
`existingShares` in local variables and computes the writes from them. -/

inductive TradePc
  | readBalance
  | readProfile
  | writeBalance
  | writeShares
  | readPosition
  | writePosition
  | writeTxn
  | halted
deriving DecidableEq

def failedResult (msg : String) : TradeExecutionResult :=
  { success := false, error := some msg }

structure TradeProc where
  buyerId : Nat
  quantity : ℚ
  pricePerShare : ℚ
  transactionType : TradeType
  balanceRead : ℚ := 0
  availRead : ℚ := 0
  posRead : Option Position := none
  pc : TradePc := TradePc.readBalance
  result : Option TradeExecutionResult := none
deriving DecidableEq

/-- One store call of one in-flight `executeTradeTransaction` invocation, in
the source's call order: read account, read profile, write balance, write
`available_shares`, read `shares`, write `shares`, insert transaction. -/
def stepTrade (pr : TradeProc) (st : DbState) : TradeProc × DbState :=
  let totalAmount := pr.quantity * pr.pricePerShare
  match pr.pc with
  | TradePc.readBalance =>
    match st.balanceOf pr.buyerId with
    | none =>
        ({ pr with
            pc := TradePc.halted,
            result := some (failedResult "Failed to fetch buyer account information") }, st)
    | some balance =>
        if pr.transactionType = TradeType.buy ∧ balance < totalAmount then
          ({ pr with
              pc := TradePc.halted,
              result := some (failedResult "Insufficient funds") }, st)
        else
          ({ pr with balanceRead := balance, pc := TradePc.readProfile }, st)
  | TradePc.readProfile =>
    if pr.transactionType = TradeType.buy ∧ st.available_shares < pr.quantity then
      ({ pr with
          pc := TradePc.halted,
          result := some (failedResult "Insufficient shares available") }, st)
    else
      ({ pr with availRead := st.available_shares, pc := TradePc.writeBalance }, st)
  | TradePc.writeBalance =>
    let newBalance := if pr.transactionType = TradeType.buy then
        pr.balanceRead - totalAmount
      else pr.balanceRead + totalAmount
    ({ pr with pc := TradePc.writeShares }, updateBalance st pr.buyerId newBalance)
  | TradePc.writeShares =>
    let newAvailableShares := if pr.transactionType = TradeType.buy then
        pr.availRead - pr.quantity
      else pr.availRead + pr.quantity
    ({ pr with pc := TradePc.readPosition }, updateAvailableShares st newAvailableShares)
  | TradePc.readPosition =>
    match st.findPosition pr.buyerId with
    | some existingShares =>
        ({ pr with posRead := some existingShares, pc := TradePc.writePosition }, st)
    | none =>
        if pr.transactionType = TradeType.buy then
          ({ pr with posRead := none, pc := TradePc.writePosition }, st)
        else
          ({ pr with
              pc := TradePc.halted,
              result := some (failedResult "Cannot sell shares you do not own") }, st)
  | TradePc.writePosition =>
    match pr.posRead with
    | some existingShares =>
        let newQuantity := if pr.transactionType = TradeType.buy then
            existingShares.quantity + pr.quantity
          else existingShares.quantity - pr.quantity
        let newAveragePrice := if pr.transactionType = TradeType.buy then
            (existingShares.quantity * existingShares.average_price +
              pr.quantity * pr.pricePerShare) / (existingShares.quantity + pr.quantity)
          else existingShares.average_price
        if newQuantity ≤ 0 then
          ({ pr with pc := TradePc.writeTxn }, deletePosition st pr.buyerId)
        else
          ({ pr with pc := TradePc.writeTxn },
            updatePosition st pr.buyerId newQuantity newAveragePrice)
    | none =>
        ({ pr with pc := TradePc.writeTxn },
          insertPosition st pr.buyerId pr.quantity pr.pricePerShare)
  | TradePc.writeTxn =>
    ({ pr with
        pc := TradePc.halted,
        result := some { success := true, transactionId := some st.nextId } },
      appendTransaction st pr.buyerId pr.transactionType pr.quantity pr.pricePerShare totalAmount)
  | TradePc.halted => (pr, st)

/-- Run two in-flight invocations under a schedule: `true` steps the first,
`false` steps the second. -/
def runSched : List Bool → TradeProc → TradeProc → DbState → TradeProc × TradeProc × DbState
  | [], a, b, st => (a, b, st)
  | true :: rest, a, b, st => runSched rest (stepTrade a st).1 b (stepTrade a st).2
  | false :: rest, a, b, st => runSched rest a (stepTrade b st).1 (stepTrade b st).2

/-! ### Invariant auditor (`src/src/utils/debugTrading.ts`)

`debugAllTradeableUsers` (lines 189-244) computes, per tradeable user,
`totalBought`/`totalSold` over that user's transactions, then
`expectedAvailable = total_shares - (totalBought - totalSold)` and
`discrepancy = available_shares - expectedAvailable`; it performs no writes.
`fixShareCountDiscrepancies` (lines 247-303) computes the same
`correctAvailableShares` and overwrites `available_shares` with it exactly
when they differ.  Both are modelled for the one issuer in the state. -/

/-- `transactions.filter(t => t.transaction_type === 'buy').reduce((sum, t) => sum + t.quantity, 0)`. -/
def totalBoughtRows : List Txn → ℚ
  | [] => 0
  | t :: rest =>
      (if t.transaction_type = TradeType.buy then t.quantity else 0) + totalBoughtRows rest

def totalSoldRows : List Txn → ℚ
  | [] => 0
  | t :: rest =>
      (if t.transaction_type = TradeType.sell then t.quantity else 0) + totalSoldRows rest

def expectedAvailable (st : DbState) : ℚ :=
  st.total_shares - (totalBoughtRows st.transactions - totalSoldRows st.transactions)

/-- What the audit loop body reports for the issuer. -/
structure AuditReport where
  expected : ℚ
  actual : ℚ
  discrepancy : ℚ
  consistent : Bool
deriving DecidableEq

/-- The per-issuer body of `debugAllTradeableUsers`: a pure read. -/
def auditIssuer (st : DbState) : AuditReport :=
  let expected := expectedAvailable st
  let discrepancy := st.available_shares - expected
  { expected := expected, actual := st.available_shares,
    discrepancy := discrepancy, consistent := decide (discrepancy = 0) }

/-- The per-issuer body of `fixShareCountDiscrepancies`: overwrite the stored
counter with the recomputed value exactly when they differ. -/
def fixShareCount (st : DbState) : DbState :=
  let correctAvailableShares := expectedAvailable st
  if st.available_shares ≠ correctAvailableShares then
    updateAvailableShares st correctAvailableShares
  else st

/-! ### Invariants of the data model -/

/-- Σ of position quantities across all owners (for the one issuer). -/
def sumQuantities : List Position → ℚ
  | [] => 0
  | r :: rest => r.quantity + sumQuantities rest

/-- The conservation law of the spec:
`availableShares + Σ(positions' quantities) = totalShares`. -/
def conserves (st : DbState) : Prop :=
  st.available_shares + sumQuantities st.shares = st.total_shares

/-- Data integrity of the `shares` table: one row per owner (the schema's
`UNIQUE(owner_id, tradeable_user_id)`) and non-negative quantities. -/
def positionsWF (st : DbState) : Prop :=
  (st.shares.map Position.owner_id).Nodup ∧ ∀ r ∈ st.shares, 0 ≤ r.quantity

/-- Freshness of the generated transaction ids: every stored row's id is
below `nextId` (primary keys are never reused). -/
def txnsFresh (st : DbState) : Prop :=
  ∀ t ∈ st.transactions, t.id < st.nextId

/-- Schedule on which exactly the store call with index `k` fails. -/
def onlyFault (k : Nat) : Nat → Bool := fun i => if i = k then true else false

/-- Equality of the four stores the settlement touches, as observed for one
buyer: the buyer's cash balance, the issuer's `available_shares`, the buyer's
position row, and the transaction log. -/
def obsEq (a b : DbState) (u : Nat) : Prop :=
  a.balanceOf u = b.balanceOf u ∧ a.available_shares = b.available_shares ∧
  a.findPosition u = b.findPosition u ∧ a.transactions = b.transactions

theorem sell_ne_buy : TradeType.sell ≠ TradeType.buy := by decide

theorem buy_ne_sell : TradeType.buy ≠ TradeType.sell := by decide

/-! ### Helper lemmas about the row operations -/

theorem lookupBalance_setBalanceRows {l : List (Nat × ℚ)} {u : Nat} {b : ℚ} (nb : ℚ)
    (h : lookupBalance l u = some b) :
    lookupBalance (setBalanceRows l u nb) u = some nb := by
  induction l with
  | nil => simp [lookupBalance] at h
  | cons hd tl ih =>
    obtain ⟨uid, bb⟩ := hd
    by_cases hu : uid = u
    · subst hu
      simp [lookupBalance, setBalanceRows]
    · simp only [lookupBalance, setBalanceRows, if_neg hu] at h ⊢
      exact ih h

theorem findPositionRows_eq_none_iff {l : List Position} {u : Nat} :
    findPositionRows l u = none ↔ ∀ r ∈ l, r.owner_id ≠ u := by
  induction l with
  | nil => simp [findPositionRows]
  | cons hd tl ih =>
    simp only [findPositionRows]
    by_cases hu : hd.owner_id = u
    · simp [hu]
    · simp [if_neg hu, ih, hu]

theorem findPositionRows_setPositionRows {l : List Position} {u : Nat} {r : Position}
    (q a : ℚ) (h : findPositionRows l u = some r) :
    findPositionRows (setPositionRows l u q a) u =
      some { r with quantity := q, average_price := a } := by
  induction l with
  | nil => simp [findPositionRows] at h
  | cons hd tl ih =>
    by_cases hu : hd.owner_id = u
    · simp only [findPositionRows, if_pos hu] at h
      cases h
      simp [setPositionRows, findPositionRows, if_pos hu, hu]
    · simp only [findPositionRows, setPositionRows, if_neg hu] at h ⊢
      exact ih h

theorem findPositionRows_removePositionRows (l : List Position) (u : Nat) :
    findPositionRows (removePositionRows l u) u = none := by
  induction l with
  | nil => simp [removePositionRows, findPositionRows]
  | cons hd tl ih =>
    by_cases hu : hd.owner_id = u
    · simpa [removePositionRows, if_pos hu] using ih
    · simpa [removePositionRows, findPositionRows, if_neg hu] using ih

theorem mem_of_findPositionRows {l : List Position} {u : Nat} {r : Position}
    (h : findPositionRows l u = some r) : r ∈ l ∧ r.owner_id = u := by
  induction l with
  | nil => simp [findPositionRows] at h
  | cons hd tl ih =>
    by_cases hu : hd.owner_id = u
    · simp only [findPositionRows, if_pos hu] at h
      cases h
      exact ⟨List.mem_cons_self _ _, hu⟩
    · simp only [findPositionRows, if_neg hu] at h
      obtain ⟨hm, ho⟩ := ih h
      exact ⟨List.mem_cons_of_mem _ hm, ho⟩

theorem setPositionRows_of_absent {l : List Position} {u : Nat} (q a : ℚ)
    (h : ∀ r ∈ l, r.owner_id ≠ u) : setPositionRows l u q a = l := by
  induction l with
  | nil => simp [setPositionRows]
  | cons hd tl ih =>
    have hh := h hd (List.mem_cons_self _ _)
    rw [setPositionRows, if_neg hh, ih (fun r hr => h r (List.mem_cons_of_mem _ hr))]

theorem removePositionRows_of_absent {l : List Position} {u : Nat}
    (h : ∀ r ∈ l, r.owner_id ≠ u) : removePositionRows l u = l := by
  induction l with
  | nil => simp [removePositionRows]
  | cons hd tl ih =>
    have hh := h hd (List.mem_cons_self _ _)
    rw [removePositionRows, if_neg hh, ih (fun r hr => h r (List.mem_cons_of_mem _ hr))]

theorem sumQuantities_append (l : List Position) (r : Position) :
    sumQuantities (l ++ [r]) = sumQuantities l + r.quantity := by
  induction l with
  | nil => simp [sumQuantities]
  | cons hd tl ih =>
    simp only [List.cons_append, sumQuantities, List.append_eq, ih]
    ring

theorem sumQuantities_setPositionRows {l : List Position} {u : Nat} {r : Position}
    (q a : ℚ) (hnd : (l.map Position.owner_id).Nodup)
    (h : findPositionRows l u = some r) :
    sumQuantities (setPositionRows l u q a) = sumQuantities l - r.quantity + q := by
  induction l with
  | nil => simp [findPositionRows] at h
  | cons hd tl ih =>
    simp only [List.map_cons, List.nodup_cons] at hnd
    by_cases hu : hd.owner_id = u
    · simp only [findPositionRows, if_pos hu] at h
      cases h
      have habs : ∀ r' ∈ tl, r'.owner_id ≠ u := by
        intro r' hr' he
        apply hnd.1
        have hmem : r'.owner_id ∈ tl.map Position.owner_id := List.mem_map_of_mem _ hr'
        rwa [he, ← hu] at hmem
      rw [setPositionRows, if_pos hu, setPositionRows_of_absent q a habs]
      simp [sumQuantities]
      try ring
    · simp only [findPositionRows, if_neg hu] at h
      rw [setPositionRows, if_neg hu]
      simp only [sumQuantities, ih hnd.2 h]
      ring

theorem sumQuantities_removePositionRows {l : List Position} {u : Nat} {r : Position}
    (hnd : (l.map Position.owner_id).Nodup)
    (h : findPositionRows l u = some r) :
    sumQuantities (removePositionRows l u) = sumQuantities l - r.quantity := by
  induction l with
  | nil => simp [findPositionRows] at h
  | cons hd tl ih =>
    simp only [List.map_cons, List.nodup_cons] at hnd
    by_cases hu : hd.owner_id = u
    · simp only [findPositionRows, if_pos hu] at h
      cases h
      have habs : ∀ r' ∈ tl, r'.owner_id ≠ u := by
        intro r' hr' he
        apply hnd.1
        have hmem : r'.owner_id ∈ tl.map Position.owner_id := List.mem_map_of_mem _ hr'
        rwa [he, ← hu] at hmem
      rw [removePositionRows, if_pos hu, removePositionRows_of_absent habs]
      simp [sumQuantities]
      try ring
    · simp only [findPositionRows, if_neg hu] at h
      rw [removePositionRows, if_neg hu]
      simp only [sumQuantities, ih hnd.2 h]
      ring

theorem owners_setPositionRows (l : List Position) (u : Nat) (q a : ℚ) :
    (setPositionRows l u q a).map Position.owner_id = l.map Position.owner_id := by
  induction l with
  | nil => simp [setPositionRows]
  | cons hd tl ih =>
    by_cases hu : hd.owner_id = u
    · simp only [setPositionRows, if_pos hu, List.map_cons, ih]
    · simp only [setPositionRows, if_neg hu, List.map_cons, ih]

theorem removePositionRows_sublist (l : List Position) (u : Nat) :
    (removePositionRows l u).Sublist l := by
  induction l with
  | nil => simp [removePositionRows]
  | cons hd tl ih =>
    by_cases hu : hd.owner_id = u
    · rw [removePositionRows, if_pos hu]
      exact ih.cons hd
    · rw [removePositionRows, if_neg hu]
      exact ih.cons₂ hd

theorem mem_setPositionRows {l : List Position} {u : Nat} {q a : ℚ} {r : Position}
    (h : r ∈ setPositionRows l u q a) :
    r ∈ l ∨ ∃ r' ∈ l, r = { r' with quantity := q, average_price := a } := by
  induction l with
  | nil => simp [setPositionRows] at h
  | cons hd tl ih =>
    by_cases hu : hd.owner_id = u
    · rw [setPositionRows, if_pos hu] at h
      rcases List.mem_cons.mp h with h1 | h2
      · exact Or.inr ⟨hd, List.mem_cons_self _ _, h1⟩
      · rcases ih h2 with h3 | ⟨r', hr', he⟩
        · exact Or.inl (List.mem_cons_of_mem _ h3)
        · exact Or.inr ⟨r', List.mem_cons_of_mem _ hr', he⟩
    · rw [setPositionRows, if_neg hu] at h
      rcases List.mem_cons.mp h with h1 | h2
      · exact Or.inl (h1 ▸ List.mem_cons_self _ _)
      · rcases ih h2 with h3 | ⟨r', hr', he⟩
        · exact Or.inl (List.mem_cons_of_mem _ h3)
        · exact Or.inr ⟨r', List.mem_cons_of_mem _ hr', he⟩

theorem removeTxnRows_append (l m : List Txn) (i : Nat) :
    removeTxnRows (l ++ m) i = removeTxnRows l i ++ removeTxnRows m i := by
  induction l with
  | nil => simp [removeTxnRows]
  | cons hd tl ih =>
    by_cases hi : hd.id = i
    · simp only [List.cons_append, removeTxnRows, List.append_eq, if_pos hi, ih]
    · simp only [List.cons_append, removeTxnRows, List.append_eq, if_neg hi, ih]

theorem removeTxnRows_of_absent {l : List Txn} {i : Nat}
    (h : ∀ t ∈ l, t.id ≠ i) : removeTxnRows l i = l := by
  induction l with
  | nil => simp [removeTxnRows]
  | cons hd tl ih =>
    have hh := h hd (List.mem_cons_self _ _)
    rw [removeTxnRows, if_neg hh, ih (fun t ht => h t (List.mem_cons_of_mem _ ht))]

/-- Deleting the freshly appended transaction restores the log. -/
theorem removeTxnRows_append_fresh {l : List Txn} {n : Nat} (t : Txn)
    (hfresh : ∀ t' ∈ l, t'.id < n) (ht : t.id = n) :
    removeTxnRows (l ++ [t]) n = l := by
  rw [removeTxnRows_append]
  rw [removeTxnRows_of_absent (fun t' ht' => Nat.ne_of_lt (hfresh t' ht'))]
  simp [removeTxnRows, ht]

/-- C2: the claim states that a sell whose quantity exceeds the seller's
position quantity is rejected before any state is mutated and never settles.
Evaluating `executeTradeTransaction` at the failing input — an existing
position of 10 shares and a sell order for 40 at price 10 — shows the trade
settles successfully instead: the position row is deleted, `available_shares`
rises by the full 40, and the seller's balance is credited the full 400. -/
theorem oversell_settles_in_executeTradeTransaction :
    (executeTradeTransaction
      { accounts := [(3, 100)], total_shares := 30, available_shares := 20,
        shares := [{ owner_id := 3, quantity := 10, average_price := 4 }],
        transactions := [], nextId := 0, events := [] }
      noFaults 3 40 10 TradeType.sell).1.success = true ∧
    (executeTradeTransaction
      { accounts := [(3, 100)], total_shares := 30, available_shares := 20,
        shares := [{ owner_id := 3, quantity := 10, average_price := 4 }],
        transactions := [], nextId := 0, events := [] }
      noFaults 3 40 10 TradeType.sell).2.shares = [] ∧
    (executeTradeTransaction
      { accounts := [(3, 100)], total_shares := 30, available_shares := 20,
        shares := [{ owner_id := 3, quantity := 10, average_price := 4 }],
        transactions := [], nextId := 0, events := [] }
      noFaults 3 40 10 TradeType.sell).2.available_shares = 60 ∧
    (executeTradeTransaction
      { accounts := [(3, 100)], total_shares := 30, available_shares := 20,
        shares := [{ owner_id := 3, quantity := 10, average_price := 4 }],
        transactions := [], nextId := 0, events := [] }
      noFaults 3 40 10 TradeType.sell).2.accounts = [(3, 500)] := by
  norm_num [executeTradeTransaction, recordTransactionStep, noFaults,
    DbState.balanceOf, lookupBalance, DbState.findPosition, findPositionRows,
    updateBalance, updateAvailableShares, deletePosition, removePositionRows,
    updatePosition, setPositionRows, insertPosition, setBalanceRows,
    appendTransaction, sell_ne_buy, buy_ne_sell]

/-- C1 counterexample: starting from a conserving state
(`availableShares + Σ positions = totalShares`, here 50 + 10 = 60), a settled
sell of 40 against a position of only 10 returns success and leaves
`availableShares + Σ positions = 90 ≠ 60`, so conservation as claimed fails
on the code. -/
theorem oversell_breaks_conservation :
    conserves
      { accounts := [(7, 1000)], total_shares := 60, available_shares := 50,
        shares := [{ owner_id := 7, quantity := 10, average_price := 5 }],
        transactions := [], nextId := 0, events := [] } ∧
    (executeTradeTransaction
      { accounts := [(7, 1000)], total_shares := 60, available_shares := 50,
        shares := [{ owner_id := 7, quantity := 10, average_price := 5 }],
        transactions := [], nextId := 0, events := [] }
      noFaults 7 40 2 TradeType.sell).1.success = true ∧
    ¬ conserves
      (executeTradeTransaction
        { accounts := [(7, 1000)], total_shares := 60, available_shares := 50,
          shares := [{ owner_id := 7, quantity := 10, average_price := 5 }],
          transactions := [], nextId := 0, events := [] }
        noFaults 7 40 2 TradeType.sell).2 := by
  norm_num [executeTradeTransaction, recordTransactionStep, noFaults,
    DbState.balanceOf, lookupBalance, DbState.findPosition, findPositionRows,
    updateBalance, updateAvailableShares, deletePosition, removePositionRows,
    updatePosition, setPositionRows, insertPosition, setBalanceRows,
    appendTransaction, sell_ne_buy, buy_ne_sell, conserves, sumQuantities]

/-- C3 counterexample: in `executeTradeTransaction`, when the single store
write at call site 3 (update of `available_shares`) fails during a buy of 5
at price 2, settlement returns a non-success outcome but the buyer's balance
has already been debited (100 → 90) and is not restored: the effects of the
order neither all stick nor all vanish. -/
theorem original_leaves_partial_state_on_fault :
    (executeTradeTransaction
      { accounts := [(1, 100)], total_shares := 100, available_shares := 50,
        shares := [], transactions := [], nextId := 0, events := [] }
      (onlyFault 3) 1 5 2 TradeType.buy).1.success = false ∧
    (executeTradeTransaction
      { accounts := [(1, 100)], total_shares := 100, available_shares := 50,
        shares := [], transactions := [], nextId := 0, events := [] }
      (onlyFault 3) 1 5 2 TradeType.buy).1.error = some "Failed to update share availability" ∧
    (executeTradeTransaction
      { accounts := [(1, 100)], total_shares := 100, available_shares := 50,
        shares := [], transactions := [], nextId := 0, events := [] }
      (onlyFault 3) 1 5 2 TradeType.buy).2.accounts = [(1, 90)] := by
  norm_num [executeTradeTransaction, recordTransactionStep, onlyFault,
    DbState.balanceOf, lookupBalance, DbState.findPosition, findPositionRows,
    updateBalance, updateAvailableShares, deletePosition, removePositionRows,
    updatePosition, setPositionRows, insertPosition, setBalanceRows,
    appendTransaction, sell_ne_buy, buy_ne_sell]

/-- C4 counterexample: a successful buy through `executeTradeTransaction`
performs its mutations in the order balance write, supply write, position
write, transaction insert — the transaction record is appended last, not
first, refuting the claim for the settlement path the UI actually calls. -/
theorem original_records_transaction_last :
    (executeTradeTransaction
      { accounts := [(2, 1000)], total_shares := 100, available_shares := 50,
        shares := [], transactions := [], nextId := 0, events := [] }
      noFaults 2 4 10 TradeType.buy).1.success = true ∧
    (executeTradeTransaction
      { accounts := [(2, 1000)], total_shares := 100, available_shares := 50,
        shares := [], transactions := [], nextId := 0, events := [] }
      noFaults 2 4 10 TradeType.buy).2.events =
      [MutEv.updBalance, MutEv.updShares, MutEv.insPos, MutEv.insTxn] ∧
    [MutEv.updBalance, MutEv.updShares, MutEv.insPos, MutEv.insTxn].head? ≠
      some MutEv.insTxn := by
  refine ⟨?_, ?_, by decide⟩ <;>
  norm_num [executeTradeTransaction, recordTransactionStep, noFaults,
    DbState.balanceOf, lookupBalance, DbState.findPosition, findPositionRows,
    updateBalance, updateAvailableShares, deletePosition, removePositionRows,
    updatePosition, setPositionRows, insertPosition, setBalanceRows,
    appendTransaction, sell_ne_buy, buy_ne_sell]

/-- C9 counterexample: the claim states that an order whose quantity is not
a positive finite value is rejected before any store is written.  A buy of
quantity 0 instead settles successfully (error-free) and performs all four
store mutations, so no such validation exists. -/
theorem no_validation_of_quantity_positivity :
    (executeTradeTransaction
      { accounts := [(2, 50)], total_shares := 20, available_shares := 10,
        shares := [], transactions := [], nextId := 0, events := [] }
      noFaults 2 0 10 TradeType.buy).1.success = true ∧
    (executeTradeTransaction
      { accounts := [(2, 50)], total_shares := 20, available_shares := 10,
        shares := [], transactions := [], nextId := 0, events := [] }
      noFaults 2 0 10 TradeType.buy).1.error = none ∧
    (executeTradeTransaction
      { accounts := [(2, 50)], total_shares := 20, available_shares := 10,
        shares := [], transactions := [], nextId := 0, events := [] }
      noFaults 2 0 10 TradeType.buy).2.events =
      [MutEv.updBalance, MutEv.updShares, MutEv.insPos, MutEv.insTxn] := by
  norm_num [executeTradeTransaction, recordTransactionStep, noFaults,
    DbState.balanceOf, lookupBalance, DbState.findPosition, findPositionRows,
    updateBalance, updateAvailableShares, deletePosition, removePositionRows,
    updatePosition, setPositionRows, insertPosition, setBalanceRows,
    appendTransaction, sell_ne_buy, buy_ne_sell]

theorem findPosition_updateBalance (st : DbState) (u : Nat) (nb : ℚ) (v : Nat) :
    (updateBalance st u nb).findPosition v = st.findPosition v := rfl

theorem findPosition_updateAvailableShares (st : DbState) (w : ℚ) (v : Nat) :
    (updateAvailableShares st w).findPosition v = st.findPosition v := rfl

theorem balanceOf_updateAvailableShares (st : DbState) (w : ℚ) (u : Nat) :
    (updateAvailableShares st w).balanceOf u = st.balanceOf u := rfl

/-- C10: a sell through `executeTradeTransaction` with no position row for
the (buyer, issuer) pair returns failure with the message «Cannot sell shares
you do not own», and at that point the buyer's balance has already been
credited quantity × pricePerShare and `available_shares` has already been
incremented by quantity, with neither write undone and no transaction row
recorded. -/
theorem sell_without_position_partial_effects
    (st : DbState) (buyerId : Nat) (q p bal : ℚ)
    (hbal : st.balanceOf buyerId = some bal)
    (hpos : st.findPosition buyerId = none) :
    (executeTradeTransaction st noFaults buyerId q p TradeType.sell).1 =
      { success := false, error := some "Cannot sell shares you do not own" } ∧
    (executeTradeTransaction st noFaults buyerId q p TradeType.sell).2.balanceOf buyerId
      = some (bal + q * p) ∧
    (executeTradeTransaction st noFaults buyerId q p TradeType.sell).2.available_shares
      = st.available_shares + q ∧
    (executeTradeTransaction st noFaults buyerId q p TradeType.sell).2.shares = st.shares ∧
    (executeTradeTransaction st noFaults buyerId q p TradeType.sell).2.transactions
      = st.transactions := by
  have hlook : lookupBalance st.accounts buyerId = some bal := hbal
  simp only [executeTradeTransaction, noFaults, Bool.false_eq_true, if_false,
    hbal, sell_ne_buy, false_and, ite_false, findPosition_updateAvailableShares,
    findPosition_updateBalance, hpos]
  refine ⟨trivial, ?_, rfl, rfl, rfl⟩
  simp only [updateAvailableShares, updateBalance, DbState.balanceOf]
  exact lookupBalance_setBalanceRows _ hlook

theorem balanceOf_appendTransaction (st : DbState) (b : Nat) (tt : TradeType)
    (q p amt : ℚ) (u : Nat) :
    (appendTransaction st b tt q p amt).balanceOf u = st.balanceOf u := rfl

theorem balanceOf_deletePosition (st : DbState) (v u : Nat) :
    (deletePosition st v).balanceOf u = st.balanceOf u := rfl

theorem balanceOf_updatePosition (st : DbState) (v : Nat) (q a : ℚ) (u : Nat) :
    (updatePosition st v q a).balanceOf u = st.balanceOf u := rfl

theorem balanceOf_insertPosition (st : DbState) (v : Nat) (q a : ℚ) (u : Nat) :
    (insertPosition st v q a).balanceOf u = st.balanceOf u := rfl

/-- C8: a buy order fails with «Insufficient funds», leaving the state
untouched, whenever the buyer's balance is below quantity × pricePerUnit;
a buy that settles debits exactly quantity × pricePerUnit and leaves the
resulting balance non-negative. -/
theorem buy_funds_check_and_debit
    (st : DbState) (faults : Nat → Bool) (buyerId : Nat) (q p bal : ℚ)
    (h0 : faults 0 = false)
    (hbal : st.balanceOf buyerId = some bal) :
    (bal < q * p →
      executeTradeTransaction st faults buyerId q p TradeType.buy =
        ({ success := false, error := some "Insufficient funds" }, st)) ∧
    ((executeTradeTransaction st faults buyerId q p TradeType.buy).1.success = true →
      (executeTradeTransaction st faults buyerId q p TradeType.buy).2.balanceOf buyerId
        = some (bal - q * p) ∧ 0 ≤ bal - q * p) := by
  have hlook : lookupBalance st.accounts buyerId = some bal := hbal
  constructor
  · intro hlt
    simp [executeTradeTransaction, h0, hbal, hlt]
  · rcases hE : executeTradeTransaction st faults buyerId q p TradeType.buy with ⟨r, st2⟩
    intro hsucc
    simp only [executeTradeTransaction, h0, Bool.false_eq_true, if_false, hbal,
      recordTransactionStep] at hE
    by_cases hlt : bal < q * p
    · simp only [hlt, and_true, if_pos, reduceIte] at hE
      cases hE
      simp at hsucc
    · have hge : 0 ≤ bal - q * p := by linarith [not_lt.mp hlt]
      simp only [hlt, and_false, ite_false, if_neg, reduceIte] at hE
      split at hE
      · cases hE; simp at hsucc
      · split at hE
        · cases hE; simp at hsucc
        · split at hE
          · cases hE; simp at hsucc
          · split at hE
            · cases hE; simp at hsucc
            · split at hE
              · cases hE; simp at hsucc
              · split at hE
                · -- found an existing position
                  split at hE
                  · split at hE
                    · cases hE; simp at hsucc
                    · split at hE
                      · cases hE; simp at hsucc
                      · cases hE
                        refine ⟨?_, hge⟩
                        simp only [balanceOf_appendTransaction, balanceOf_deletePosition,
                          DbState.balanceOf, updateAvailableShares, updateBalance,
                          deletePosition]
                        exact lookupBalance_setBalanceRows _ hlook
                  · split at hE
                    · cases hE; simp at hsucc
                    · split at hE
                      · cases hE; simp at hsucc
                      · cases hE
                        refine ⟨?_, hge⟩
                        simp only [balanceOf_appendTransaction, balanceOf_updatePosition,
                          DbState.balanceOf, updateAvailableShares, updateBalance,
                          updatePosition]
                        exact lookupBalance_setBalanceRows _ hlook
                · -- no existing position: buy inserts a fresh row
                  split at hE
                  · cases hE; simp at hsucc
                  · split at hE
                    · cases hE; simp at hsucc
                    · cases hE
                      refine ⟨?_, hge⟩
                      simp only [balanceOf_appendTransaction, balanceOf_insertPosition,
                        DbState.balanceOf, updateAvailableShares, updateBalance,
                        insertPosition]
                      exact lookupBalance_setBalanceRows _ hlook

/-- C9 (amended): neither settlement function validates that quantity or
pricePerUnit is positive: for any state whose account and profile reads
succeed with non-negative balance and supply, a buy of quantity 0 passes
every check and settles successfully. -/
theorem zero_quantity_buy_settles
    (st : DbState) (buyerId : Nat) (p bal : ℚ)
    (hbal : st.balanceOf buyerId = some bal) (hb : 0 ≤ bal)
    (ha : 0 ≤ st.available_shares) :
    (executeTradeTransaction st noFaults buyerId 0 p TradeType.buy).1.success = true := by
  have hnl : ¬ bal < 0 * p := by rw [zero_mul]; exact not_lt.mpr hb
  have hna : ¬ st.available_shares < 0 := not_lt.mpr ha
  simp only [executeTradeTransaction, noFaults, Bool.false_eq_true, if_false, hbal,
    hnl, hna, and_false, if_neg, ite_false, reduceIte, recordTransactionStep]
  split
  · split
    · rfl
    · rfl
  · rfl

theorem findPosition_appendTransaction (st : DbState) (b : Nat) (tt : TradeType)
    (q p amt : ℚ) (u : Nat) :
    (appendTransaction st b tt q p amt).findPosition u = st.findPosition u := rfl

theorem shares_updateBalance (st : DbState) (u : Nat) (nb : ℚ) :
    (updateBalance st u nb).shares = st.shares := rfl

theorem shares_updateAvailableShares (st : DbState) (v : ℚ) :
    (updateAvailableShares st v).shares = st.shares := rfl

/-- C7: for a buy of quantity q at price p against an existing position
(q₁ ≥ 0, avg₁) that settles, the position becomes
(q₁+q, (q₁·avg₁ + q·p)/(q₁+q)); for a settled sell of 0 < q ≤ q₁, the
average cost is unchanged, and when the new quantity reaches exactly zero
the position row is deleted rather than kept at zero. -/
theorem position_cost_basis_law
    (st : DbState) (buyerId : Nat) (q p : ℚ) (pos : Position)
    (hpos : st.findPosition buyerId = some pos)
    (hq1 : 0 ≤ pos.quantity) (hq : 0 < q) :
    ((executeTradeTransaction st noFaults buyerId q p TradeType.buy).1.success = true →
      (executeTradeTransaction st noFaults buyerId q p TradeType.buy).2.findPosition buyerId =
        some { owner_id := pos.owner_id, quantity := pos.quantity + q,
               average_price := (pos.quantity * pos.average_price + q * p) /
                 (pos.quantity + q) }) ∧
    (q ≤ pos.quantity →
      (executeTradeTransaction st noFaults buyerId q p TradeType.sell).1.success = true →
      ((q = pos.quantity →
         (executeTradeTransaction st noFaults buyerId q p TradeType.sell).2.findPosition
           buyerId = none) ∧
       (q < pos.quantity →
         (executeTradeTransaction st noFaults buyerId q p TradeType.sell).2.findPosition
           buyerId =
           some { owner_id := pos.owner_id, quantity := pos.quantity - q,
                  average_price := pos.average_price }))) := by
  constructor
  · rcases hE : executeTradeTransaction st noFaults buyerId q p TradeType.buy with ⟨r, st2⟩
    intro hsucc
    simp only [executeTradeTransaction, noFaults, Bool.false_eq_true, if_false,
      ite_true, ite_false, recordTransactionStep, findPosition_updateAvailableShares,
      findPosition_updateBalance, hpos] at hE
    split at hE
    · cases hE; simp at hsucc
    · split at hE
      · cases hE; simp at hsucc
      · split at hE
        · cases hE; simp at hsucc
        · have hnz : ¬ pos.quantity + q ≤ 0 := by intro hle; linarith
          rw [if_neg hnz] at hE
          cases hE
          simp only [findPosition_appendTransaction, DbState.findPosition, updatePosition,
            shares_updateAvailableShares, shares_updateBalance]
          exact findPositionRows_setPositionRows _ _ hpos
  · intro hle
    rcases hE : executeTradeTransaction st noFaults buyerId q p TradeType.sell with ⟨r, st2⟩
    intro hsucc
    simp only [executeTradeTransaction, noFaults, Bool.false_eq_true, if_false,
      sell_ne_buy, false_and, ite_true, ite_false, reduceIte, recordTransactionStep,
      findPosition_updateAvailableShares, findPosition_updateBalance, hpos] at hE
    split at hE
    · cases hE; simp at hsucc
    · constructor
      · intro heq
        have hz : pos.quantity - q ≤ 0 := by linarith
        rw [if_pos hz] at hE
        cases hE
        simp only [findPosition_appendTransaction, DbState.findPosition, deletePosition]
        exact findPositionRows_removePositionRows _ _
      · intro hltq
        have hz : ¬ pos.quantity - q ≤ 0 := by intro hle2; linarith
        rw [if_neg hz] at hE
        cases hE
        simp only [findPosition_appendTransaction, DbState.findPosition, updatePosition,
          shares_updateAvailableShares, shares_updateBalance]
        exact findPositionRows_setPositionRows _ _ hpos

theorem owner_not_mem_of_find_none {l : List Position} {u : Nat}
    (h : findPositionRows l u = none) : u ∉ l.map Position.owner_id := by
  intro hm
  obtain ⟨r, hr, he⟩ := List.mem_map.mp hm
  exact (findPositionRows_eq_none_iff.mp h r hr) he

set_option maxHeartbeats 1000000 in
/-- C1 (amended): for a well-formed state (one `shares` row per owner,
non-negative position quantities) satisfying conservation, an order of
positive quantity that settles successfully — where a sell's quantity does not
exceed the seller's existing position — re-establishes
`availableShares + Σ positions = totalShares` and well-formedness after the
settled order completes; by induction this holds after each order of such a
sequence.  (The unamended claim is refuted by `oversell_breaks_conservation`:
a settled oversell deletes the position row and breaks conservation.) -/
theorem settled_orders_conserve_supply
    (st : DbState) (faults : Nat → Bool) (buyerId : Nat) (q p : ℚ) (ty : TradeType)
    (hWF : positionsWF st) (hC : conserves st) (hq : 0 < q)
    (hsell : ∀ pos, st.findPosition buyerId = some pos → ty = TradeType.sell →
      q ≤ pos.quantity)
    (hsucc : (executeTradeTransaction st faults buyerId q p ty).1.success = true) :
    conserves (executeTradeTransaction st faults buyerId q p ty).2 ∧
    positionsWF (executeTradeTransaction st faults buyerId q p ty).2 := by
  obtain ⟨hnd, hpos0⟩ := hWF
  rcases hE : executeTradeTransaction st faults buyerId q p ty with ⟨r, st2⟩
  rw [hE] at hsucc
  rcases hbb : st.balanceOf buyerId with _ | bal
  · -- the account read returns no row: both fault branches reject
    cases ty <;>
      simp only [executeTradeTransaction, hbb] at hE <;>
      split at hE <;>
      · cases hE; exact Bool.noConfusion hsucc
  · rcases hfp : st.findPosition buyerId with _ | pos
    · -- no existing position row
      cases ty with
      | buy =>
        simp only [executeTradeTransaction, recordTransactionStep, hbb, hfp,
          eq_self_iff_true, true_and, ite_true,
          findPosition_updateAvailableShares, findPosition_updateBalance] at hE
        iterate 9 (split at hE <;> try (cases hE; exact Bool.noConfusion hsucc))
        cases hE
        constructor
        · simp only [conserves, appendTransaction, insertPosition,
            updateAvailableShares, updateBalance]
          rw [sumQuantities_append]
          simp only [conserves] at hC
          simp
          linarith
        · constructor
          · simp only [appendTransaction, insertPosition,
              updateAvailableShares, updateBalance]
            rw [List.map_append]
            have hnm := owner_not_mem_of_find_none hfp
            simp [List.nodup_append, hnd]
            intro x hx he
            exact hnm (he ▸ List.mem_map_of_mem Position.owner_id hx)
          · intro rr hrr
            simp only [appendTransaction, insertPosition,
              updateAvailableShares, updateBalance] at hrr
            rcases List.mem_append.mp hrr with hin | hnew
            · exact hpos0 rr hin
            · simp at hnew
              rw [hnew]
              exact hq.le
      | sell =>
        simp only [executeTradeTransaction, recordTransactionStep, hbb, hfp,
          sell_ne_buy, false_and, ite_true, ite_false,
          findPosition_updateAvailableShares, findPosition_updateBalance] at hE
        iterate 5 (split at hE <;> try (cases hE; exact Bool.noConfusion hsucc))
    · -- an existing position row was found
      have hmem := mem_of_findPositionRows hfp
      have hposq : 0 ≤ pos.quantity := hpos0 pos hmem.1
      cases ty with
      | buy =>
        have hnz : ¬ pos.quantity + q ≤ 0 := by intro hle; linarith
        simp only [executeTradeTransaction, recordTransactionStep, hbb, hfp,
          eq_self_iff_true, true_and, ite_true, if_neg hnz,
          findPosition_updateAvailableShares, findPosition_updateBalance] at hE
        iterate 9 (split at hE <;> try (cases hE; exact Bool.noConfusion hsucc))
        cases hE
        constructor
        · simp only [conserves, appendTransaction, updatePosition,
            updateAvailableShares, updateBalance]
          rw [sumQuantities_setPositionRows _ _ hnd hfp]
          simp only [conserves] at hC
          linarith
        · constructor
          · simp only [appendTransaction, updatePosition,
              updateAvailableShares, updateBalance]
            rw [owners_setPositionRows]
            exact hnd
          · intro rr hrr
            simp only [appendTransaction, updatePosition,
              updateAvailableShares, updateBalance] at hrr
            rcases mem_setPositionRows hrr with hin | ⟨r', _, he⟩
            · exact hpos0 rr hin
            · rw [he]
              simpa using by linarith
      | sell =>
        have hq2 : q ≤ pos.quantity := hsell pos hfp rfl
        simp only [executeTradeTransaction, recordTransactionStep, hbb, hfp,
          sell_ne_buy, false_and, ite_true, ite_false,
          findPosition_updateAvailableShares, findPosition_updateBalance] at hE
        iterate 5 (split at hE <;> try (cases hE; exact Bool.noConfusion hsucc))
        split at hE
        case _ hz =>
          -- quantity − q ≤ 0 and q ≤ quantity force an exact close-out
          have hzq : pos.quantity = q := by linarith
          iterate 2 (split at hE <;> try (cases hE; exact Bool.noConfusion hsucc))
          cases hE
          constructor
          · simp only [conserves, appendTransaction, deletePosition,
              updateAvailableShares, updateBalance]
            rw [sumQuantities_removePositionRows hnd hfp]
            simp only [conserves] at hC
            linarith
          · constructor
            · simp only [appendTransaction, deletePosition,
                updateAvailableShares, updateBalance]
              exact hnd.sublist ((removePositionRows_sublist _ _).map _)
            · intro rr hrr
              simp only [appendTransaction, deletePosition,
                updateAvailableShares, updateBalance] at hrr
              exact hpos0 rr ((removePositionRows_sublist _ _).subset hrr)
        case _ hz =>
          iterate 2 (split at hE <;> try (cases hE; exact Bool.noConfusion hsucc))
          cases hE
          constructor
          · simp only [conserves, appendTransaction, updatePosition,
              updateAvailableShares, updateBalance]
            rw [sumQuantities_setPositionRows _ _ hnd hfp]
            simp only [conserves] at hC
            linarith
          · constructor
            · simp only [appendTransaction, updatePosition,
                updateAvailableShares, updateBalance]
              rw [owners_setPositionRows]
              exact hnd
            · intro rr hrr
              simp only [appendTransaction, updatePosition,
                updateAvailableShares, updateBalance] at hrr
              rcases mem_setPositionRows hrr with hin | ⟨r', _, he⟩
              · exact hpos0 rr hin
              · rw [he]
                simp only [not_le] at hz
                simpa using hz.le

theorem expectedAvailable_updateAvailableShares (st : DbState) (v : ℚ) :
    expectedAvailable (updateAvailableShares st v) = expectedAvailable st := rfl

theorem available_updateAvailableShares (st : DbState) (v : ℚ) :
    (updateAvailableShares st v).available_shares = v := rfl

/-- C6: the auditor computes
`expectedAvailable = totalShares − (Σ buy quantities − Σ sell quantities)`
over the transaction log; the repair operation overwrites the stored
`available_shares` with this value exactly when it differs (and is a no-op
otherwise and idempotent); repair followed by audit always reports
consistent.  Audit is a pure read, so running it twice with no intervening
settlement trivially yields identical results. -/
theorem audit_repair_consistent (st : DbState) :
    (auditIssuer (fixShareCount st)).consistent = true ∧
    (auditIssuer (fixShareCount st)).expected = expectedAvailable st ∧
    (auditIssuer (fixShareCount st)).actual = expectedAvailable st ∧
    (fixShareCount st).available_shares = expectedAvailable st ∧
    (st.available_shares = expectedAvailable st → fixShareCount st = st) ∧
    fixShareCount (fixShareCount st) = fixShareCount st := by
  by_cases h : st.available_shares = expectedAvailable st
  · simp [fixShareCount, auditIssuer, h]
  · simp [fixShareCount, auditIssuer, h, expectedAvailable_updateAvailableShares,
      available_updateAvailableShares]

/-- C6 witness: `audit_repair_consistent` applied at a drifted state
(stored 77 vs expected 100): repair overwrites the counter and the following
audit reports consistent. -/
theorem audit_repair_consistent_witness :
    (auditIssuer (fixShareCount
      { accounts := [(1, 100)], total_shares := 100, available_shares := 77,
        shares := [], transactions := [], nextId := 0, events := [] })).consistent = true ∧
    (fixShareCount
      { accounts := [(1, 100)], total_shares := 100, available_shares := 77,
        shares := [], transactions := [], nextId := 0, events := [] }).available_shares =
      expectedAvailable
        { accounts := [(1, 100)], total_shares := 100, available_shares := 77,
          shares := [], transactions := [], nextId := 0, events := [] } := by
  have h := audit_repair_consistent
    { accounts := [(1, 100)], total_shares := 100, available_shares := 77,
      shares := [], transactions := [], nextId := 0, events := [] }
  exact ⟨h.1, h.2.2.2.1⟩

/-- C5 counterexample: with `availableShares = 50`, two concurrent buy
orders for 40 shares each, interleaved so that both read the supply before
either writes it (schedule: both validate, then each runs to completion),
BOTH settle successfully and the final `available_shares` is 10 — 80 shares
were sold out of 50, refuting «exactly one settles, never both». -/
theorem interleaved_buys_both_settle :
    ((runSched [true, true, false, false, true, true, true, true, true,
        false, false, false, false, false]
      { buyerId := 1, quantity := 40, pricePerShare := 10, transactionType := TradeType.buy }
      { buyerId := 2, quantity := 40, pricePerShare := 10, transactionType := TradeType.buy }
      { accounts := [(1, 10000), (2, 10000)], total_shares := 1000, available_shares := 50,
        shares := [], transactions := [], nextId := 0, events := [] }).1.result =
      some { success := true, error := none, transactionId := some 0 }) ∧
    ((runSched [true, true, false, false, true, true, true, true, true,
        false, false, false, false, false]
      { buyerId := 1, quantity := 40, pricePerShare := 10, transactionType := TradeType.buy }
      { buyerId := 2, quantity := 40, pricePerShare := 10, transactionType := TradeType.buy }
      { accounts := [(1, 10000), (2, 10000)], total_shares := 1000, available_shares := 50,
        shares := [], transactions := [], nextId := 0, events := [] }).2.1.result =
      some { success := true, error := none, transactionId := some 1 }) ∧
    (runSched [true, true, false, false, true, true, true, true, true,
        false, false, false, false, false]
      { buyerId := 1, quantity := 40, pricePerShare := 10, transactionType := TradeType.buy }
      { buyerId := 2, quantity := 40, pricePerShare := 10, transactionType := TradeType.buy }
      { accounts := [(1, 10000), (2, 10000)], total_shares := 1000, available_shares := 50,
        shares := [], transactions := [], nextId := 0, events := [] }).2.2.available_shares
      = 10 := by
  norm_num [runSched, stepTrade, DbState.balanceOf, lookupBalance,
    DbState.findPosition, findPositionRows, updateBalance, updateAvailableShares,
    insertPosition, setBalanceRows, appendTransaction, failedResult,
    sell_ne_buy, buy_ne_sell]

/-- C5 (amended): the unsynchronized read-then-write of
`executeTradeTransaction` admits an interleaving in which both concurrent
buys settle (see `interleaved_buys_both_settle`); only when the two orders
are executed sequentially does exactly one settle — the first succeeds and
the second is rejected with «Insufficient shares available». -/
theorem sequential_buys_exactly_one_settles :
    (executeTradeTransaction
      { accounts := [(1, 10000), (2, 10000)], total_shares := 1000, available_shares := 50,
        shares := [], transactions := [], nextId := 0, events := [] }
      noFaults 1 40 10 TradeType.buy).1.success = true ∧
    (executeTradeTransaction
      (executeTradeTransaction
        { accounts := [(1, 10000), (2, 10000)], total_shares := 1000, available_shares := 50,
          shares := [], transactions := [], nextId := 0, events := [] }
        noFaults 1 40 10 TradeType.buy).2
      noFaults 2 40 10 TradeType.buy).1 =
      { success := false, error := some "Insufficient shares available" } := by
  norm_num [executeTradeTransaction, recordTransactionStep, noFaults,
    DbState.balanceOf, lookupBalance, DbState.findPosition, findPositionRows,
    updateBalance, updateAvailableShares, deletePosition, removePositionRows,
    updatePosition, setPositionRows, insertPosition, setBalanceRows,
    appendTransaction, sell_ne_buy, buy_ne_sell]

set_option maxHeartbeats 1000000 in
/-- C4 (amended): `executeTradeTransactionImproved` (with every store call
succeeding) either performs no mutation at all or performs the transaction
append as its first mutating step, before the cash delta, the supply delta
and the position delta.  (`executeTradeTransaction` instead appends the
record last, per `original_records_transaction_last`.) -/
theorem improved_records_transaction_first
    (st : DbState) (buyerId : Nat) (q p : ℚ) (ty : TradeType)
    (hev : st.events = []) :
    (executeTradeTransactionImproved st noFaults buyerId q p ty).2.events = [] ∨
    (executeTradeTransactionImproved st noFaults buyerId q p ty).2.events.head? =
      some MutEv.insTxn := by
  rcases hE : executeTradeTransactionImproved st noFaults buyerId q p ty with ⟨r, st2⟩
  cases ty with
  | buy =>
    simp only [executeTradeTransactionImproved, improvedOwnershipStep, noFaults,
      Bool.false_eq_true, if_false, ite_true, ite_false, eq_self_iff_true, true_and,
      false_and, false_or, buy_ne_sell, tryComp, rollbackAll, rollbackBalTxn] at hE
    split at hE
    · cases hE; exact Or.inl hev
    · split at hE
      · cases hE; exact Or.inl hev
      · split at hE
        · cases hE; exact Or.inl hev
        · split at hE
          · cases hE
            exact Or.inr (by
              simp [deleteTransaction, updateBalance, appendTransaction, hev])
          · split at hE
            · cases hE
              exact Or.inr (by
                simp [deleteTransaction, updateBalance, appendTransaction, hev])
            · split at hE
              · split at hE
                · cases hE
                  exact Or.inr (by
                    simp [deletePosition, updateAvailableShares, updateBalance,
                      appendTransaction, hev])
                · cases hE
                  exact Or.inr (by
                    simp [updatePosition, updateAvailableShares, updateBalance,
                      appendTransaction, hev])
              · cases hE
                exact Or.inr (by
                  simp [insertPosition, updateAvailableShares, updateBalance,
                    appendTransaction, hev])
  | sell =>
    simp only [executeTradeTransactionImproved, improvedOwnershipStep, noFaults,
      Bool.false_eq_true, if_false, ite_true, ite_false, eq_self_iff_true, true_and,
      false_and, false_or, sell_ne_buy, tryComp, rollbackAll, rollbackBalTxn] at hE
    split at hE
    · cases hE; exact Or.inl hev
    · split at hE
      · cases hE; exact Or.inl hev
      · split at hE
        · cases hE
          exact Or.inr (by
            simp [deleteTransaction, updateBalance, appendTransaction, hev])
        · split at hE
          · cases hE
            exact Or.inr (by
              simp [deleteTransaction, updateBalance, appendTransaction, hev])
          · split at hE
            · split at hE
              · cases hE
                exact Or.inr (by
                  simp [deletePosition, updateAvailableShares, updateBalance,
                    appendTransaction, hev])
              · cases hE
                exact Or.inr (by
                  simp [updatePosition, updateAvailableShares, updateBalance,
                    appendTransaction, hev])
            · cases hE
              exact Or.inr (by
                simp [updateAvailableShares, updateBalance, appendTransaction, hev])

theorem onlyFault_eq (k i : Nat) : (onlyFault k i = true) = (i = k) := by
  simp [onlyFault]

theorem obsEq_refl (st : DbState) (u : Nat) : obsEq st st u := ⟨rfl, rfl, rfl, rfl⟩

/-- Deleting the just-appended transaction restores all four observed stores. -/
theorem obsEq_delTxn_append (st : DbState) (b : Nat) (tt : TradeType) (q p amt : ℚ)
    (hfresh : txnsFresh st) :
    obsEq (deleteTransaction (appendTransaction st b tt q p amt) st.nextId) st b := by
  refine ⟨rfl, rfl, rfl, ?_⟩
  simp only [deleteTransaction, appendTransaction]
  exact removeTxnRows_append_fresh _ hfresh rfl

/-- The two-call rollback (restore balance, delete transaction) restores all
four observed stores. -/
theorem obsEq_rollback_bal_txn (st : DbState) (b : Nat) (tt : TradeType)
    (q p amt nb bal : ℚ) (hfresh : txnsFresh st) (hbb : st.balanceOf b = some bal) :
    obsEq (deleteTransaction
      (updateBalance (updateBalance (appendTransaction st b tt q p amt) b nb) b bal)
      st.nextId) st b := by
  refine ⟨?_, rfl, rfl, ?_⟩
  · simp only [deleteTransaction, updateBalance, appendTransaction, DbState.balanceOf]
    rw [lookupBalance_setBalanceRows bal (lookupBalance_setBalanceRows nb hbb)]
    exact hbb.symm
  · simp only [deleteTransaction, updateBalance, appendTransaction]
    exact removeTxnRows_append_fresh _ hfresh rfl

/-- The three-call rollback (restore balance, restore `available_shares`,
delete transaction) restores all four observed stores. -/
theorem obsEq_rollback_all (st : DbState) (b : Nat) (tt : TradeType)
    (q p amt nb v bal : ℚ) (hfresh : txnsFresh st) (hbb : st.balanceOf b = some bal) :
    obsEq (deleteTransaction
      (updateAvailableShares
        (updateBalance
          (updateAvailableShares
            (updateBalance (appendTransaction st b tt q p amt) b nb) v)
          b bal)
        st.available_shares)
      st.nextId) st b := by
  refine ⟨?_, rfl, rfl, ?_⟩
  · simp only [deleteTransaction, updateAvailableShares, updateBalance,
      appendTransaction, DbState.balanceOf]
    rw [lookupBalance_setBalanceRows bal (lookupBalance_setBalanceRows nb hbb)]
    exact hbb.symm
  · simp only [deleteTransaction, updateAvailableShares, updateBalance,
      appendTransaction]
    exact removeTxnRows_append_fresh _ hfresh rfl

/-- Any single store-call fault inside step 5 that yields a non-success
outcome leaves the four observed stores as they were before settlement. -/
theorem improvedOwnershipStep_single_fault_keeps
    (st : DbState) (k buyerId : Nat) (q p nb v bal : ℚ) (ty : TradeType)
    (hfresh : txnsFresh st) (hbb : st.balanceOf buyerId = some bal)
    (hfail : (improvedOwnershipStep (onlyFault k) buyerId q p ty bal
        st.available_shares st.nextId
        (updateAvailableShares
          (updateBalance (appendTransaction st buyerId ty q p (q * p)) buyerId nb)
          v)).1.success = false) :
    obsEq (improvedOwnershipStep (onlyFault k) buyerId q p ty bal
        st.available_shares st.nextId
        (updateAvailableShares
          (updateBalance (appendTransaction st buyerId ty q p (q * p)) buyerId nb)
          v)).2 st buyerId := by
  rcases hE : improvedOwnershipStep (onlyFault k) buyerId q p ty bal
      st.available_shares st.nextId
      (updateAvailableShares
        (updateBalance (appendTransaction st buyerId ty q p (q * p)) buyerId nb)
        v) with ⟨r, st2⟩
  rw [hE] at hfail
  simp only [improvedOwnershipStep, onlyFault_eq] at hE
  split at hE
  case _ hk =>
    subst hk
    cases hE
    simp only [rollbackAll, tryComp, onlyFault]
    rw [if_neg (by decide), if_neg (by decide), if_neg (by decide)]
    exact obsEq_rollback_all st buyerId ty q p (q * p) nb v bal hfresh hbb
  case _ hk13 =>
    cases ty with
    | buy =>
      simp only [eq_self_iff_true, true_and, ite_true, ite_false] at hE
      split at hE
      · split at hE
        · split at hE
          case _ hk =>
            subst hk
            cases hE
            simp only [rollbackAll, tryComp, onlyFault]
            rw [if_neg (by decide), if_neg (by decide), if_neg (by decide)]
            exact obsEq_rollback_all st buyerId TradeType.buy q p (q * p) nb v bal
              hfresh hbb
          case _ hk17 =>
            cases hE
            exact Bool.noConfusion hfail
        · split at hE
          case _ hk =>
            subst hk
            cases hE
            simp only [rollbackAll, tryComp, onlyFault]
            rw [if_neg (by decide), if_neg (by decide), if_neg (by decide)]
            exact obsEq_rollback_all st buyerId TradeType.buy q p (q * p) nb v bal
              hfresh hbb
          case _ hk21 =>
            cases hE
            exact Bool.noConfusion hfail
      · split at hE
        case _ hk =>
          subst hk
          cases hE
          simp only [rollbackAll, tryComp, onlyFault]
          rw [if_neg (by decide), if_neg (by decide), if_neg (by decide)]
          exact obsEq_rollback_all st buyerId TradeType.buy q p (q * p) nb v bal
            hfresh hbb
        case _ hk25 =>
          cases hE
          exact Bool.noConfusion hfail
    | sell =>
      simp only [sell_ne_buy, ite_false, ite_true] at hE
      split at hE
      · split at hE
        · split at hE
          case _ hk =>
            subst hk
            cases hE
            simp only [rollbackAll, tryComp, onlyFault]
            rw [if_neg (by decide), if_neg (by decide), if_neg (by decide)]
            exact obsEq_rollback_all st buyerId TradeType.sell q p (q * p) nb v bal
              hfresh hbb
          case _ hk17 =>
            cases hE
            exact Bool.noConfusion hfail
        · split at hE
          case _ hk =>
            subst hk
            cases hE
            simp only [rollbackAll, tryComp, onlyFault]
            rw [if_neg (by decide), if_neg (by decide), if_neg (by decide)]
            exact obsEq_rollback_all st buyerId TradeType.sell q p (q * p) nb v bal
              hfresh hbb
          case _ hk21 =>
            cases hE
            exact Bool.noConfusion hfail
      · cases hE
        exact Bool.noConfusion hfail

set_option maxHeartbeats 1600000 in
/-- C3 (amended): for `executeTradeTransactionImproved`, under the
documented supply invariant (0 ≤ availableShares ≤ totalShares), a positive
order quantity, a sell that does not push `availableShares` beyond
`totalShares`, and fresh transaction ids, the failure of exactly one store
call (schedule `onlyFault k`, every compensating write succeeding) with a
non-success outcome leaves the buyer's cash balance, the issuer's
`availableShares`, the buyer's position row and the transaction log exactly
as they were before the call.  (The unamended claim, over both settlement
functions, is refuted by `original_leaves_partial_state_on_fault`.) -/
theorem improved_single_fault_keeps_state
    (st : DbState) (k : Nat) (buyerId : Nat) (q p : ℚ) (ty : TradeType)
    (hfresh : txnsFresh st) (hq : 0 < q)
    (ha0 : 0 ≤ st.available_shares)
    (hat : st.available_shares ≤ st.total_shares)
    (hna : ty = TradeType.sell → st.available_shares + q ≤ st.total_shares)
    (hfail : (executeTradeTransactionImproved st (onlyFault k) buyerId q p ty).1.success
      = false) :
    obsEq (executeTradeTransactionImproved st (onlyFault k) buyerId q p ty).2 st
      buyerId := by
  rcases hE : executeTradeTransactionImproved st (onlyFault k) buyerId q p ty
    with ⟨r, st2⟩
  rw [hE] at hfail
  cases ty with
  | buy =>
    simp only [executeTradeTransactionImproved, onlyFault_eq, ite_true, ite_false,
      eq_self_iff_true, true_and, false_and, false_or, buy_ne_sell] at hE
    split at hE
    · cases hE; exact obsEq_refl st buyerId
    · split at hE
      · cases hE; exact obsEq_refl st buyerId
      case _ bal hbb =>
        split at hE
        · cases hE; exact obsEq_refl st buyerId
        · split at hE
          · cases hE; exact obsEq_refl st buyerId
          · split at hE
            case _ hsup => cases hE; exact obsEq_refl st buyerId
            case _ hsup =>
              split at hE
              · cases hE; exact obsEq_refl st buyerId
              · split at hE
                case _ hk =>
                  subst hk
                  cases hE
                  simp only [tryComp, onlyFault]
                  rw [if_neg (by decide)]
                  exact obsEq_delTxn_append st buyerId TradeType.buy q p (q * p) hfresh
                case _ hk4 =>
                  split at hE
                  case _ hlt =>
                    exfalso
                    simp only [not_lt] at hsup
                    linarith
                  case _ hlt =>
                    split at hE
                    case _ hgt =>
                      exfalso
                      linarith
                    case _ hgt =>
                      split at hE
                      case _ hk =>
                        subst hk
                        cases hE
                        simp only [rollbackBalTxn, tryComp, onlyFault]
                        rw [if_neg (by decide), if_neg (by decide)]
                        exact obsEq_rollback_bal_txn st buyerId TradeType.buy q p
                          (q * p) _ bal hfresh hbb
                      case _ hk10 =>
                        have h5 := improvedOwnershipStep_single_fault_keeps st k
                          buyerId q p (bal - q * p) (st.available_shares - q) bal
                          TradeType.buy hfresh hbb (by rw [hE]; exact hfail)
                        rw [hE] at h5
                        exact h5
  | sell =>
    simp only [executeTradeTransactionImproved, onlyFault_eq, ite_true, ite_false,
      eq_self_iff_true, true_and, false_and, false_or, sell_ne_buy] at hE
    split at hE
    · cases hE; exact obsEq_refl st buyerId
    · split at hE
      · cases hE; exact obsEq_refl st buyerId
      case _ bal hbb =>
        split at hE
        · cases hE; exact obsEq_refl st buyerId
        · split at hE
          · cases hE; exact obsEq_refl st buyerId
          · split at hE
            · cases hE; exact obsEq_refl st buyerId
            · split at hE
              case _ hk =>
                subst hk
                cases hE
                simp only [tryComp, onlyFault]
                rw [if_neg (by decide)]
                exact obsEq_delTxn_append st buyerId TradeType.sell q p (q * p) hfresh
              case _ hk4 =>
                split at hE
                case _ hlt =>
                  exfalso
                  linarith
                case _ hlt =>
                  split at hE
                  case _ hgt =>
                    exfalso
                    have := hna rfl
                    linarith
                  case _ hgt =>
                    split at hE
                    case _ hk =>
                      subst hk
                      cases hE
                      simp only [rollbackBalTxn, tryComp, onlyFault]
                      rw [if_neg (by decide), if_neg (by decide)]
                      exact obsEq_rollback_bal_txn st buyerId TradeType.sell q p
                        (q * p) _ bal hfresh hbb
                    case _ hk10 =>
                      have h5 := improvedOwnershipStep_single_fault_keeps st k
                        buyerId q p (bal + q * p) (st.available_shares + q) bal
                        TradeType.sell hfresh hbb (by rw [hE]; exact hfail)
                      rw [hE] at h5
                      exact h5

/-- C1 witness: `settled_orders_conserve_supply` applied at a concrete
conserving state (90 + 10 = 100) and a settled buy of 5. -/
theorem settled_orders_conserve_supply_witness :
    conserves (executeTradeTransaction
      { accounts := [(1, 1000)], total_shares := 100, available_shares := 90,
        shares := [{ owner_id := 1, quantity := 10, average_price := 5 }],
        transactions := [], nextId := 0, events := [] }
      noFaults 1 5 2 TradeType.buy).2 ∧
    positionsWF (executeTradeTransaction
      { accounts := [(1, 1000)], total_shares := 100, available_shares := 90,
        shares := [{ owner_id := 1, quantity := 10, average_price := 5 }],
        transactions := [], nextId := 0, events := [] }
      noFaults 1 5 2 TradeType.buy).2 :=
  settled_orders_conserve_supply
    { accounts := [(1, 1000)], total_shares := 100, available_shares := 90,
      shares := [{ owner_id := 1, quantity := 10, average_price := 5 }],
      transactions := [], nextId := 0, events := [] }
    noFaults 1 5 2 TradeType.buy
    (by constructor
        · simp
        · intro r hr
          simp at hr
          rw [hr]
          norm_num)
    (by norm_num [conserves, sumQuantities])
    (by norm_num)
    (by intro pos hp hty; cases hty)
    (by norm_num [executeTradeTransaction, recordTransactionStep, noFaults,
      DbState.balanceOf, lookupBalance, DbState.findPosition, findPositionRows,
      updateBalance, updateAvailableShares, updatePosition, setPositionRows,
      setBalanceRows, appendTransaction, sell_ne_buy, buy_ne_sell])

/-- C3 witness: `improved_single_fault_keeps_state` applied at a concrete
state with the `available_shares` write (call site 10) failing during a buy:
all four observed stores are unchanged. -/
theorem improved_single_fault_keeps_state_witness :
    obsEq (executeTradeTransactionImproved
      { accounts := [(1, 100)], total_shares := 100, available_shares := 50,
        shares := [], transactions := [], nextId := 0, events := [] }
      (onlyFault 10) 1 5 2 TradeType.buy).2
      { accounts := [(1, 100)], total_shares := 100, available_shares := 50,
        shares := [], transactions := [], nextId := 0, events := [] } 1 :=
  improved_single_fault_keeps_state
    { accounts := [(1, 100)], total_shares := 100, available_shares := 50,
      shares := [], transactions := [], nextId := 0, events := [] }
    10 1 5 2 TradeType.buy
    (by intro t ht; simp at ht)
    (by norm_num)
    (by norm_num)
    (by norm_num)
    (by intro h; cases h)
    (by norm_num [executeTradeTransactionImproved, improvedOwnershipStep,
      rollbackAll, rollbackBalTxn, tryComp, onlyFault, noFaults,
      DbState.balanceOf, lookupBalance, DbState.findPosition, findPositionRows,
      updateBalance, updateAvailableShares, insertPosition,
      setBalanceRows, appendTransaction, deleteTransaction, removeTxnRows,
      sell_ne_buy, buy_ne_sell])

/-- C4 witness: `improved_records_transaction_first` applied to a concrete
state with an empty event trace. -/
theorem improved_records_transaction_first_witness :
    (executeTradeTransactionImproved
      { accounts := [(1, 100)], total_shares := 100, available_shares := 50,
        shares := [], transactions := [], nextId := 0, events := [] }
      noFaults 1 5 2 TradeType.buy).2.events = [] ∨
    (executeTradeTransactionImproved
      { accounts := [(1, 100)], total_shares := 100, available_shares := 50,
        shares := [], transactions := [], nextId := 0, events := [] }
      noFaults 1 5 2 TradeType.buy).2.events.head? = some MutEv.insTxn :=
  improved_records_transaction_first
    { accounts := [(1, 100)], total_shares := 100, available_shares := 50,
      shares := [], transactions := [], nextId := 0, events := [] }
    1 5 2 TradeType.buy rfl

/-- C7 witness: `position_cost_basis_law` applied to a position of 10
shares at average cost 4, buying and selling 5 at price 8. -/
theorem position_cost_basis_law_witness :
    ((executeTradeTransaction
      { accounts := [(1, 1000)], total_shares := 100, available_shares := 50,
        shares := [{ owner_id := 1, quantity := 10, average_price := 4 }],
        transactions := [], nextId := 0, events := [] }
      noFaults 1 5 8 TradeType.buy).1.success = true →
      (executeTradeTransaction
        { accounts := [(1, 1000)], total_shares := 100, available_shares := 50,
          shares := [{ owner_id := 1, quantity := 10, average_price := 4 }],
          transactions := [], nextId := 0, events := [] }
        noFaults 1 5 8 TradeType.buy).2.findPosition 1 =
        some { owner_id := 1, quantity := 10 + 5,
               average_price := (10 * 4 + 5 * 8) / (10 + 5) }) ∧
    (5 ≤ (10 : ℚ) →
      (executeTradeTransaction
        { accounts := [(1, 1000)], total_shares := 100, available_shares := 50,
          shares := [{ owner_id := 1, quantity := 10, average_price := 4 }],
          transactions := [], nextId := 0, events := [] }
        noFaults 1 5 8 TradeType.sell).1.success = true →
      ((5 = (10 : ℚ) →
         (executeTradeTransaction
           { accounts := [(1, 1000)], total_shares := 100, available_shares := 50,
             shares := [{ owner_id := 1, quantity := 10, average_price := 4 }],
             transactions := [], nextId := 0, events := [] }
           noFaults 1 5 8 TradeType.sell).2.findPosition 1 = none) ∧
       (5 < (10 : ℚ) →
         (executeTradeTransaction
           { accounts := [(1, 1000)], total_shares := 100, available_shares := 50,
             shares := [{ owner_id := 1, quantity := 10, average_price := 4 }],
             transactions := [], nextId := 0, events := [] }
           noFaults 1 5 8 TradeType.sell).2.findPosition 1 =
           some { owner_id := 1, quantity := 10 - 5, average_price := 4 }))) :=
  position_cost_basis_law
    { accounts := [(1, 1000)], total_shares := 100, available_shares := 50,
      shares := [{ owner_id := 1, quantity := 10, average_price := 4 }],
      transactions := [], nextId := 0, events := [] }
    1 5 8 { owner_id := 1, quantity := 10, average_price := 4 }
    rfl (by norm_num) (by norm_num)

/-- C8 witness: `buy_funds_check_and_debit` applied at balance 20 with a
buy of 2 at price 3. -/
theorem buy_funds_check_and_debit_witness :
    ((20 : ℚ) < 2 * 3 →
      executeTradeTransaction
        { accounts := [(1, 20)], total_shares := 10, available_shares := 10,
          shares := [], transactions := [], nextId := 0, events := [] }
        noFaults 1 2 3 TradeType.buy =
        ({ success := false, error := some "Insufficient funds" },
          { accounts := [(1, 20)], total_shares := 10, available_shares := 10,
            shares := [], transactions := [], nextId := 0, events := [] })) ∧
    ((executeTradeTransaction
        { accounts := [(1, 20)], total_shares := 10, available_shares := 10,
          shares := [], transactions := [], nextId := 0, events := [] }
        noFaults 1 2 3 TradeType.buy).1.success = true →
      (executeTradeTransaction
        { accounts := [(1, 20)], total_shares := 10, available_shares := 10,
          shares := [], transactions := [], nextId := 0, events := [] }
        noFaults 1 2 3 TradeType.buy).2.balanceOf 1 = some (20 - 2 * 3) ∧
      (0 : ℚ) ≤ 20 - 2 * 3) :=
  buy_funds_check_and_debit
    { accounts := [(1, 20)], total_shares := 10, available_shares := 10,
      shares := [], transactions := [], nextId := 0, events := [] }
    noFaults 1 2 3 20 rfl rfl

/-- C9 witness: `zero_quantity_buy_settles` applied at a concrete state:
the zero-quantity buy settles. -/
theorem zero_quantity_buy_settles_witness :
    (executeTradeTransaction
      { accounts := [(2, 50)], total_shares := 20, available_shares := 10,
        shares := [], transactions := [], nextId := 0, events := [] }
      noFaults 2 0 7 TradeType.buy).1.success = true :=
  zero_quantity_buy_settles
    { accounts := [(2, 50)], total_shares := 20, available_shares := 10,
      shares := [], transactions := [], nextId := 0, events := [] }
    2 7 50 rfl (by norm_num) (by norm_num)

/-- C10 witness: `sell_without_position_partial_effects` applied at a
concrete state with no position row: the failure message is returned while
the balance and supply writes persist. -/
theorem sell_without_position_partial_effects_witness :
    (executeTradeTransaction
      { accounts := [(4, 10)], total_shares := 5, available_shares := 5,
        shares := [], transactions := [], nextId := 0, events := [] }
      noFaults 4 3 2 TradeType.sell).1 =
      { success := false, error := some "Cannot sell shares you do not own" } ∧
    (executeTradeTransaction
      { accounts := [(4, 10)], total_shares := 5, available_shares := 5,
        shares := [], transactions := [], nextId := 0, events := [] }
      noFaults 4 3 2 TradeType.sell).2.balanceOf 4 = some (10 + 3 * 2) ∧
    (executeTradeTransaction
      { accounts := [(4, 10)], total_shares := 5, available_shares := 5,
        shares := [], transactions := [], nextId := 0, events := [] }
      noFaults 4 3 2 TradeType.sell).2.available_shares = 5 + 3 ∧
    (executeTradeTransaction
      { accounts := [(4, 10)], total_shares := 5, available_shares := 5,
        shares := [], transactions := [], nextId := 0, events := [] }
      noFaults 4 3 2 TradeType.sell).2.shares = [] ∧
    (executeTradeTransaction
      { accounts := [(4, 10)], total_shares := 5, available_shares := 5,
        shares := [], transactions := [], nextId := 0, events := [] }
      noFaults 4 3 2 TradeType.sell).2.transactions = [] :=
  sell_without_position_partial_effects
    { accounts := [(4, 10)], total_shares := 5, available_shares := 5,
      shares := [], transactions := [], nextId := 0, events := [] }
    4 3 2 10 rfl rfl
